import Mathlib

/-!
Shallow embedding of the PipeGuru campaign SDK (DummyApp/src/sdk/PipeGuru.ts,
DummyApp/src/sdk/CampaignManager.ts), the backend campaign store
(backend/server.js) and the enhanced dismissal-aware SDK documented in
findings/POC-findings.md, together with theorems settling the claims about
campaign selection, change detection, dismissal and the event hub.
-/

/-- Component discriminator of the Campaign tagged union (spec section 3;
CampaignManager.ts declares the `component` field, PipeGuru.ts filters on the
three literals Popup, PermissionPrompt and InlineComponent). -/
inductive ComponentKind
  | Popup
  | PermissionPrompt
  | InlineComponent
deriving DecidableEq, Repr

/-- Trigger record of a campaign: `{type: "screen_enter", screen: <name>}`
(CampaignManager.ts). -/
structure Trigger where
  type : String
  screen : String
deriving DecidableEq, Repr

/-- Display payload of a campaign (CampaignManager.ts `props`; the optional
buttons are used by the Popup variant, the selectors never inspect these
fields). -/
structure CampaignProps where
  title : String
  message : String
  primaryButton : Option String
  secondaryButton : Option String
deriving DecidableEq, Repr

/-- Campaign record (CampaignManager.ts): stable `id`, component discriminator,
screen-enter trigger, display props and an `active` boolean gate. -/
structure Campaign where
  id : String
  component : ComponentKind
  trigger : Trigger
  props : CampaignProps
  active : Bool
deriving DecidableEq, Repr

/-- Filter of CampaignManager.ts `getCampaignsForScreen`: keeps the campaigns
whose trigger is `screen_enter` for the given screen, in list order. -/
def getCampaignsForScreen (campaigns : List Campaign) (screenName : String) : List Campaign :=
  campaigns.filter (fun campaign =>
    campaign.trigger.type == "screen_enter" && campaign.trigger.screen == screenName)

/-- PipeGuru.ts `getPopupCampaign`: screen campaigns filtered to Popups, first
one or null (`popups.length > 0 ? popups[0] : null`). -/
def getPopupCampaign (campaigns : List Campaign) (screenName : String) : Option Campaign :=
  let screenCampaigns := getCampaignsForScreen campaigns screenName
  let popups := screenCampaigns.filter (fun campaign =>
    campaign.component == ComponentKind.Popup)
  popups.head?

/-- PipeGuru.ts `getPermissionPromptCampaign`: screen campaigns filtered to
PermissionPrompts, first one or null. -/
def getPermissionPromptCampaign (campaigns : List Campaign) (screenName : String) : Option Campaign :=
  let screenCampaigns := getCampaignsForScreen campaigns screenName
  let prompts := screenCampaigns.filter (fun campaign =>
    campaign.component == ComponentKind.PermissionPrompt)
  prompts.head?

/-- PipeGuru.ts `getInlineComponent` (singular): screen campaigns filtered to
InlineComponents, props of the first one or null. -/
def getInlineComponent (campaigns : List Campaign) (screenName : String) : Option CampaignProps :=
  let screenCampaigns := getCampaignsForScreen campaigns screenName
  let inlineComponents := screenCampaigns.filter (fun campaign =>
    campaign.component == ComponentKind.InlineComponent)
  (inlineComponents.head?).map Campaign.props

/-- Head of a filtered list is the first element satisfying the predicate. -/
theorem head_filter_eq_find {α : Type} (p : α → Bool) (l : List α) :
    (l.filter p).head? = l.find? p := by
  induction l with
  | nil => rfl
  | cons a t ih =>
    by_cases h : p a
    · simp [List.filter_cons, List.find?, h]
    · simp [List.filter_cons, List.find?, h, ih]

/-- Two successive filters collapse to one filter with the conjunction. -/
theorem filter_filter_and {α : Type} (p q : α → Bool) (l : List α) :
    (l.filter p).filter q = l.filter (fun a => p a && q a) := by
  induction l with
  | nil => rfl
  | cons a t ih =>
    by_cases hp : p a
    · by_cases hq : q a
      · simp [List.filter_cons, hp, hq, ih]
      · simp [List.filter_cons, hp, hq, ih]
    · simp [List.filter_cons, hp, ih]

/-- C5: for every campaign list L and screen name S, getPopupCampaign returns
either none or the first element of L in original array order whose trigger
type is screen_enter, whose trigger screen is S and whose component is Popup;
ties between several eligible popups are thus broken by original array order. -/
theorem getPopupCampaign_first_match (L : List Campaign) (S : String) :
    getPopupCampaign L S =
      L.find? (fun c =>
        (c.trigger.type == "screen_enter" && c.trigger.screen == S) &&
        c.component == ComponentKind.Popup) := by
  simp only [getPopupCampaign, getCampaignsForScreen]
  rw [filter_filter_and, head_filter_eq_find]

/-- Raw response shape of the campaigns endpoint (CampaignManager.ts
`CampaignsConfig`). -/
structure CampaignsConfig where
  campaigns : List Campaign
deriving DecidableEq, Repr

/-- Outcome of one `fetch` attempt against the campaigns endpoint, as far as
`loadCampaigns` can observe it: the transport fails, or a response arrives with
an `ok` flag and a body that parses to a config or fails to parse. -/
inductive FetchOutcome
  | networkError
  | response (ok : Bool) (parsed : Option CampaignsConfig)
deriving DecidableEq, Repr

/-- CampaignManager.ts `loadCampaigns`: a non-ok status throws, a parse failure
throws, the catch-all turns every throw into the empty list, and on success the
raw campaign list is filtered to `active == true`. The function is total into
a plain list: it never rejects. -/
def loadCampaigns : FetchOutcome → List Campaign
  | FetchOutcome.networkError => []
  | FetchOutcome.response ok parsed =>
    if ok then
      match parsed with
      | some config => config.campaigns.filter (fun campaign => campaign.active)
      | none => []
    else []

/-- C7: loadCampaigns never rejects (it is total into a campaign list): any
transport failure, non-ok status or parse failure yields the empty list, and on
success it returns exactly the campaigns of the response whose active field is
true, so an inactive campaign is never returned. -/
theorem loadCampaigns_fail_soft (o : FetchOutcome) :
    (∀ c ∈ loadCampaigns o, c.active = true) ∧
    loadCampaigns FetchOutcome.networkError = [] ∧
    (∀ b, loadCampaigns (FetchOutcome.response b none) = []) ∧
    (∀ parsed, loadCampaigns (FetchOutcome.response false parsed) = []) ∧
    (∀ config, loadCampaigns (FetchOutcome.response true (some config)) =
      config.campaigns.filter (fun campaign => campaign.active)) := by
  refine ⟨?_, rfl, ?_, ?_, fun config => rfl⟩
  · intro c hc
    match o with
    | FetchOutcome.networkError => simp [loadCampaigns] at hc
    | FetchOutcome.response ok parsed =>
      match ok, parsed with
      | true, some config =>
        simp only [loadCampaigns, if_true] at hc
        simpa using (List.of_mem_filter hc)
      | true, none => simp [loadCampaigns] at hc
      | false, _ => simp [loadCampaigns] at hc
  · intro b; cases b <;> rfl
  · intro parsed; rfl

/-- Witness for loadCampaigns_fail_soft at a concrete successful response
holding one active and one inactive campaign. -/
theorem loadCampaigns_fail_soft_witness :
    (∀ c ∈ loadCampaigns (FetchOutcome.response true (some ⟨[
      ⟨"a", ComponentKind.Popup, ⟨"screen_enter", "Home"⟩, ⟨"t", "m", none, none⟩, true⟩,
      ⟨"b", ComponentKind.Popup, ⟨"screen_enter", "Home"⟩, ⟨"t", "m", none, none⟩, false⟩]⟩)),
      c.active = true) ∧
    loadCampaigns FetchOutcome.networkError = [] := by
  have h := loadCampaigns_fail_soft (FetchOutcome.response true (some ⟨[
    ⟨"a", ComponentKind.Popup, ⟨"screen_enter", "Home"⟩, ⟨"t", "m", none, none⟩, true⟩,
    ⟨"b", ComponentKind.Popup, ⟨"screen_enter", "Home"⟩, ⟨"t", "m", none, none⟩, false⟩]⟩))
  exact ⟨h.1, h.2.1⟩

/-- Result of one POST /api/campaigns request (backend/server.js): HTTP status,
response body when a campaign is returned, and the stored list afterwards. -/
structure PostResult where
  status : Nat
  body : Option Campaign
  store : List Campaign
deriving DecidableEq, Repr

/-- backend/server.js POST /api/campaigns handler: if some stored campaign has
the same id the request is rejected with 400 and the store is untouched,
otherwise the new campaign is appended and echoed back with 201. -/
def postCampaign (data : List Campaign) (newCampaign : Campaign) : PostResult :=
  if (data.find? (fun c => c.id == newCampaign.id)).isSome then
    ⟨400, none, data⟩
  else
    ⟨201, some newCampaign, data ++ [newCampaign]⟩

/-- C9: a POST of a campaign whose id equals the id of an already-stored
campaign is rejected with HTTP 400 and leaves the stored list unchanged; a POST
of a campaign with a fresh id appends it to the list and returns HTTP 201 with
the stored value. -/
theorem postCampaign_duplicate_id (data : List Campaign) (c : Campaign) :
    ((∃ c0 ∈ data, c0.id = c.id) → postCampaign data c = ⟨400, none, data⟩) ∧
    ((∀ c0 ∈ data, c0.id ≠ c.id) → postCampaign data c = ⟨201, some c, data ++ [c]⟩) := by
  constructor
  · rintro ⟨c0, hmem, hid⟩
    have hfind : (data.find? (fun x => x.id == c.id)).isSome := by
      rw [List.find?_isSome]
      exact ⟨c0, hmem, by simp [hid]⟩
    simp [postCampaign, hfind]
  · intro hall
    have hfind : ¬ (data.find? (fun x => x.id == c.id)).isSome := by
      rw [List.find?_isSome]
      rintro ⟨c0, hmem, hid⟩
      exact hall c0 hmem (by simpa using hid)
    simp [postCampaign, hfind]

/-- Witness for postCampaign_duplicate_id: a colliding POST on a one-element
store is rejected, and a fresh-id POST on the empty store is appended. -/
theorem postCampaign_duplicate_id_witness :
    postCampaign [⟨"x", ComponentKind.Popup, ⟨"screen_enter", "Home"⟩, ⟨"t", "m", none, none⟩, true⟩]
        ⟨"x", ComponentKind.Popup, ⟨"screen_enter", "Home"⟩, ⟨"t", "m", none, none⟩, false⟩ =
      ⟨400, none, [⟨"x", ComponentKind.Popup, ⟨"screen_enter", "Home"⟩, ⟨"t", "m", none, none⟩, true⟩]⟩ ∧
    postCampaign []
        ⟨"y", ComponentKind.Popup, ⟨"screen_enter", "Home"⟩, ⟨"t", "m", none, none⟩, true⟩ =
      ⟨201, some ⟨"y", ComponentKind.Popup, ⟨"screen_enter", "Home"⟩, ⟨"t", "m", none, none⟩, true⟩,
        [⟨"y", ComponentKind.Popup, ⟨"screen_enter", "Home"⟩, ⟨"t", "m", none, none⟩, true⟩]⟩ := by
  constructor
  · exact (postCampaign_duplicate_id _ _).1
      ⟨⟨"x", ComponentKind.Popup, ⟨"screen_enter", "Home"⟩, ⟨"t", "m", none, none⟩, true⟩,
        by simp, rfl⟩
  · exact (postCampaign_duplicate_id _ _).2 (by simp)

/-- Mutable state of the PipeGuruSDK singleton (PipeGuru.ts private fields).
Callbacks are modelled by numeric identities (callback identity is what the
source uses for removal); the polling interval handle holds the interval length
in milliseconds while a timer is active. -/
structure SDKState where
  apiKey : String
  campaigns : List Campaign
  listeners : List (String × List Nat)
  pollingInterval : Option Nat
  isInitialized : Bool
deriving DecidableEq, Repr

/-- Freshly constructed PipeGuruSDK instance (PipeGuru.ts field initializers). -/
def initialState : SDKState :=
  ⟨"", [], [], none, false⟩

/-- PipeGuru.ts `fetchCampaigns`, one tick, given the list the awaited
`loadCampaigns` produced: the new list is compared to the held list by
serialize-and-compare (JSON.stringify equality, which on this data is
structural list equality with order significant), the held list is replaced,
and `campaigns_updated` is emitted with the new list exactly when the
comparison saw a change. The returned list collects the emitted events. -/
def fetchCampaignsStep (s : SDKState) (newCampaigns : List Campaign) :
    SDKState × List (String × List Campaign) :=
  let campaignsChanged : Bool := s.campaigns ≠ newCampaigns
  let s' : SDKState := { s with campaigns := newCampaigns }
  if campaignsChanged then (s', [("campaigns_updated", newCampaigns)]) else (s', [])

/-- C3: on each polling tick the freshly fetched list is compared to the held
list by deep structural equality in which order is significant: identical lists
(same order) produce no event and leave the state unchanged; lists differing in
content or order replace the held list and produce exactly one
campaigns_updated event carrying the new list. -/
theorem fetchCampaigns_change_detection (s : SDKState) (newCampaigns : List Campaign) :
    (s.campaigns = newCampaigns → fetchCampaignsStep s newCampaigns = (s, [])) ∧
    (s.campaigns ≠ newCampaigns →
      fetchCampaignsStep s newCampaigns =
        ({ s with campaigns := newCampaigns }, [("campaigns_updated", newCampaigns)])) := by
  constructor
  · intro h
    subst h
    simp [fetchCampaignsStep]
  · intro h
    simp [fetchCampaignsStep, h]

/-- Witness for fetchCampaigns_change_detection: an identical refetch of the
empty list is silent, and a refetch that delivers one campaign emits exactly
one event with the new list. -/
theorem fetchCampaigns_change_detection_witness :
    fetchCampaignsStep initialState [] = (initialState, []) ∧
    fetchCampaignsStep initialState
        [⟨"a", ComponentKind.Popup, ⟨"screen_enter", "Home"⟩, ⟨"t", "m", none, none⟩, true⟩] =
      ({ initialState with campaigns :=
          [⟨"a", ComponentKind.Popup, ⟨"screen_enter", "Home"⟩, ⟨"t", "m", none, none⟩, true⟩] },
        [("campaigns_updated",
          [⟨"a", ComponentKind.Popup, ⟨"screen_enter", "Home"⟩, ⟨"t", "m", none, none⟩, true⟩])]) := by
  constructor
  · exact (fetchCampaigns_change_detection initialState []).1 rfl
  · exact (fetchCampaigns_change_detection initialState _).2 (by decide)

/-- First-call side effects of `initialize` (PipeGuru.ts): how many immediate
fetches were started and how many recurring timers were scheduled. -/
structure InitEffects where
  immediateFetches : Nat
  timersStarted : Nat
deriving DecidableEq, Repr

/-- PipeGuru.ts `initialize`: when already initialized it only warns and
returns (no state change, no fetch, no timer); otherwise it stores the api key,
marks the SDK initialized, starts one immediate fetch and schedules one
recurring fetch timer with a 5000 ms interval. -/
def initSDK (s : SDKState) (apiKey : String) : SDKState × InitEffects :=
  if s.isInitialized then
    (s, ⟨0, 0⟩)
  else
    ({ s with apiKey := apiKey, isInitialized := true, pollingInterval := some 5000 }, ⟨1, 1⟩)

/-- C4: initialize is idempotent: a call while the SDK is already polling is a
no-op, so calling initialize twice in succession from an uninitialized state
performs first-call side effects exactly once: one immediate fetch, one timer
firing every 5 seconds, and the second call changes nothing. -/
theorem initSDK_idempotent (s : SDKState) (key1 key2 : String)
    (h : s.isInitialized = false) :
    (initSDK (initSDK s key1).1 key2).1 = (initSDK s key1).1 ∧
    (initSDK (initSDK s key1).1 key2).2 = ⟨0, 0⟩ ∧
    (initSDK s key1).2 = ⟨1, 1⟩ ∧
    (initSDK s key1).1.pollingInterval = some 5000 ∧
    (initSDK s key1).2.immediateFetches + (initSDK (initSDK s key1).1 key2).2.immediateFetches = 1 ∧
    (initSDK s key1).2.timersStarted + (initSDK (initSDK s key1).1 key2).2.timersStarted = 1 := by
  simp [initSDK, h]

/-- Witness for initSDK_idempotent: double initialization from the fresh
instance. -/
theorem initSDK_idempotent_witness :
    initialState.isInitialized = false ∧
    (initSDK (initSDK initialState "key").1 "key").1 = (initSDK initialState "key").1 ∧
    (initSDK initialState "key").2 = ⟨1, 1⟩ :=
  ⟨rfl, (initSDK_idempotent initialState "key" "key" rfl).1,
    (initSDK_idempotent initialState "key" "key" rfl).2.2.1⟩

/-- Lookup of PipeGuru.ts `this.listeners.get(event)`, empty when absent
(matching `this.listeners.get(event) || []`). -/
def getListenerList (listeners : List (String × List Nat)) (event : String) : List Nat :=
  match listeners.find? (fun p => p.1 == event) with
  | some p => p.2
  | none => []

/-- Update of PipeGuru.ts `this.listeners.set(event, ...)`: replace the entry
when the key exists, append a new entry otherwise. -/
def setListenerList (listeners : List (String × List Nat)) (event : String)
    (cbs : List Nat) : List (String × List Nat) :=
  if (listeners.find? (fun p => p.1 == event)).isSome then
    listeners.map (fun p => if p.1 == event then (p.1, cbs) else p)
  else
    listeners ++ [(event, cbs)]

/-- PipeGuru.ts `_on`: pushes the callback onto the event's list (creating the
list if missing), then, only for `campaigns_updated` with a non-empty held
campaign list, immediately invokes the new callback with the current list. The
returned invocation list records the synchronous calls made before `_on`
returns, in order, each with its payload. -/
def onEvent (s : SDKState) (event : String) (cb : Nat) :
    SDKState × List (Nat × List Campaign) :=
  let cbs := getListenerList s.listeners event
  let s' : SDKState := { s with listeners := setListenerList s.listeners event (cbs ++ [cb]) }
  if event == "campaigns_updated" && !s.campaigns.isEmpty then
    (s', [(cb, s.campaigns)])
  else
    (s', [])

/-- Setting an event's callback list and reading it back yields exactly that
list, for both branches of the Map-like update. -/
theorem getListenerList_set (ls : List (String × List Nat)) (e : String) (cbs : List Nat) :
    getListenerList (setListenerList ls e cbs) e = cbs := by
  unfold setListenerList
  by_cases hfind : (ls.find? (fun q => q.1 == e)).isSome = true
  · rw [if_pos hfind]
    obtain ⟨q0, hq0⟩ := Option.isSome_iff_exists.mp hfind
    clear hfind
    have hmap : (ls.map (fun q => if q.1 == e then (q.1, cbs) else q)).find?
        (fun q => q.1 == e) = some (q0.1, cbs) := by
      induction ls with
      | nil => simp at hq0
      | cons a t ih =>
        by_cases ha : (a.1 == e) = true
        · simp only [List.find?, ha] at hq0
          simp only [Option.some.injEq] at hq0
          subst hq0
          simp [List.find?, List.map_cons, ha]
        · have ha2 : (a.1 == e) = false := by
            rw [← Bool.not_eq_true]
            exact ha
          simp only [List.find?, ha2] at hq0
          simp only [List.map_cons, ha2, Bool.false_eq_true, if_false, List.find?]
          exact ih hq0
    unfold getListenerList
    rw [hmap]
  · rw [if_neg hfind]
    have hnone : ls.find? (fun q => q.1 == e) = none :=
      Option.not_isSome_iff_eq_none.mp hfind
    unfold getListenerList
    rw [List.find?_append, hnone]
    simp [List.find?]

/-- C6: subscribing to campaigns_updated while a non-empty campaign list is
held invokes the newly registered callback exactly once, synchronously, with
the current list, before the subscription call returns; subscribing while the
held list is empty performs no replay. In both cases the callback is appended
to the event's registration list. -/
theorem on_campaigns_updated_replay (s : SDKState) (cb : Nat) :
    (s.campaigns ≠ [] →
      (onEvent s "campaigns_updated" cb).2 = [(cb, s.campaigns)]) ∧
    (s.campaigns = [] → (onEvent s "campaigns_updated" cb).2 = []) ∧
    getListenerList (onEvent s "campaigns_updated" cb).1.listeners "campaigns_updated" =
      getListenerList s.listeners "campaigns_updated" ++ [cb] := by
  refine ⟨?_, ?_, ?_⟩
  · intro h
    have hne : s.campaigns.isEmpty = false := by
      cases hc : s.campaigns with
      | nil => exact absurd hc h
      | cons a t => rfl
    simp [onEvent, hne]
  · intro h
    simp [onEvent, h]
  · simp only [onEvent]
    by_cases hrep : ("campaigns_updated" == "campaigns_updated" && !s.campaigns.isEmpty) = true
    · rw [if_pos hrep]
      exact getListenerList_set _ _ _
    · rw [if_neg (by simpa using hrep)]
      exact getListenerList_set _ _ _

/-- Witness for on_campaigns_updated_replay: subscribing with one campaign held
replays once with that list; subscribing on the fresh instance replays
nothing. -/
theorem on_campaigns_updated_replay_witness :
    (onEvent { initialState with campaigns :=
        [⟨"a", ComponentKind.Popup, ⟨"screen_enter", "Home"⟩, ⟨"t", "m", none, none⟩, true⟩] }
      "campaigns_updated" 7).2 =
      [(7, [⟨"a", ComponentKind.Popup, ⟨"screen_enter", "Home"⟩, ⟨"t", "m", none, none⟩, true⟩])] ∧
    (onEvent initialState "campaigns_updated" 7).2 = [] := by
  constructor
  · exact (on_campaigns_updated_replay _ 7).1 (by decide)
  · exact (on_campaigns_updated_replay initialState 7).2.1 rfl

/-- PipeGuru.ts `track`: when the SDK is not initialized it only logs a warning
and returns, mutating nothing and recording nothing; when initialized it logs
the event (the production send), modelled as one recorded (name, properties)
pair. -/
def track (s : SDKState) (eventName : String) (properties : List (String × String)) :
    SDKState × List (String × List (String × String)) :=
  if s.isInitialized then
    (s, [(eventName, properties)])
  else
    (s, [])

/-- C10: calling track before the SDK is initialized never throws (track is a
total function): it returns without tracking or mutating state; and on the
fresh instance every selector returns null because the held campaign list is
still empty. -/
theorem track_before_init_safe (s : SDKState) (eventName : String)
    (properties : List (String × String)) (screen : String)
    (h : s.isInitialized = false) :
    track s eventName properties = (s, []) ∧
    getPopupCampaign initialState.campaigns screen = none ∧
    getPermissionPromptCampaign initialState.campaigns screen = none ∧
    getInlineComponent initialState.campaigns screen = none := by
  refine ⟨?_, rfl, rfl, rfl⟩
  simp [track, h]

/-- Witness for track_before_init_safe on the fresh instance. -/
theorem track_before_init_safe_witness :
    track initialState "button_clicked" [("buttonId", "checkout")] = (initialState, []) ∧
    getPopupCampaign initialState.campaigns "Home" = none :=
  ⟨(track_before_init_safe initialState "button_clicked" [("buttonId", "checkout")] "Home" rfl).1,
    (track_before_init_safe initialState "button_clicked" [("buttonId", "checkout")] "Home" rfl).2.1⟩

/-- In-memory state of the enhanced dismissal-aware SDK documented in
findings/POC-findings.md: the held campaign list plus the dismissed-campaign id
set (a JS Set, modelled as a duplicate-free insertion-ordered list). -/
structure EnhancedState where
  campaigns : List Campaign
  dismissed : List String
deriving DecidableEq, Repr

/-- Analytics record produced by the enhanced SDK's track sink:
`{id, kind, reason, timestamp}` of a campaign_dismissed event (timestamps are
wall-clock strings and are not modelled). -/
structure DismissalRecord where
  eventName : String
  campaignId : String
  campaignType : String
  reason : String
deriving DecidableEq, Repr

/-- Enhanced `dismissCampaign(campaignId, campaignType, reason)` from the SDK
integration snippet in findings/POC-findings.md: adds the id to the in-memory
dismissed set (Set.add: no duplicates), persists it best-effort through
PipeGuruStorage (fire-and-forget, not modelled beyond the set), records one
campaign_dismissed analytics event, and re-emits campaigns_updated with the
unchanged campaign list. Returns the new state, the recorded analytics events
and the emitted events. -/
def dismissCampaign (s : EnhancedState) (campaignId campaignType reason : String) :
    EnhancedState × List DismissalRecord × List (String × List Campaign) :=
  let dismissed' :=
    if s.dismissed.contains campaignId then s.dismissed else s.dismissed ++ [campaignId]
  ({ s with dismissed := dismissed' },
    [⟨"campaign_dismissed", campaignId, campaignType, reason⟩],
    [("campaigns_updated", s.campaigns)])

/-- Dismissal-aware popup selector of the enhanced SDK (findings/POC-findings.md
SDK integration snippet): screen campaigns filtered to Popups whose id is not
in the dismissed set, first one or null. -/
def getPopupCampaignDismiss (campaigns : List Campaign) (dismissed : List String)
    (screenName : String) : Option Campaign :=
  let screenCampaigns := getCampaignsForScreen campaigns screenName
  let popups := screenCampaigns.filter (fun campaign =>
    campaign.component == ComponentKind.Popup && !(dismissed.contains campaign.id))
  popups.head?

/-- Modelled from the spec: the dismissal-aware PermissionPrompt selector of the
enhanced SDK. Its implementation is missing from src (findings/POC-findings.md
shows only the Popup selector of the enhanced SDK); spec section 4.3 gives the
matching rule `trigger.type == screen_enter AND trigger.screen == screenName
AND component == kind AND id NOT IN dismissed` with the first match in list
order for the singleton kinds. -/
def getPermissionPromptCampaignDismiss (campaigns : List Campaign) (dismissed : List String)
    (screenName : String) : Option Campaign :=
  let screenCampaigns := getCampaignsForScreen campaigns screenName
  let prompts := screenCampaigns.filter (fun campaign =>
    campaign.component == ComponentKind.PermissionPrompt && !(dismissed.contains campaign.id))
  prompts.head?

/-- Modelled from the spec: `getInlineComponents(screenName, campaignIds?)` of
the enhanced SDK. Only its signature appears in findings/POC-findings.md
(`Array<InlineComponentProps & {id: string}>`); spec sections 4.3 and 8 say it
returns all matching InlineComponent campaigns in list order, respecting
dismissal, that an optional allow-list of ids restricts the result to the
intersection preserving campaign order (not allow-list order), and that each
result is tagged with its own campaign id. -/
def getInlineComponents (campaigns : List Campaign) (dismissed : List String)
    (screenName : String) (campaignIds : Option (List String)) :
    List (String × CampaignProps) :=
  let screenCampaigns := getCampaignsForScreen campaigns screenName
  let inlines := screenCampaigns.filter (fun campaign =>
    campaign.component == ComponentKind.InlineComponent && !(dismissed.contains campaign.id))
  let restricted :=
    match campaignIds with
    | none => inlines
    | some allow => inlines.filter (fun campaign => allow.contains campaign.id)
  restricted.map (fun campaign => (campaign.id, campaign.props))

/-- Campaigns whose selector predicate passed the non-dismissed check never
carry a dismissed id. -/
theorem pred_dismissed_ne {dismissed : List String} {cid : String}
    (ht : dismissed.contains cid = true) {c : Campaign}
    (h : (!(dismissed.contains c.id)) = true) : c.id ≠ cid := by
  intro hid
  rw [hid, ht] at h
  simp at h

/-- C1: once a campaign id has been dismissed via dismissCampaign(id, kind,
reason), the held campaign list is unchanged, the id is in the dismissal set,
every selector query (popup, permission prompt, inline components) on any
screen and with any allow-list never returns a campaign with that id as long
as the set holds it (and the set is only ever grown by further dismissals, so
this persists until the set is cleared). -/
theorem dismissCampaign_hides_campaign (s : EnhancedState) (cid ctype reason : String) :
    ((dismissCampaign s cid ctype reason).1).campaigns = s.campaigns ∧
    ((dismissCampaign s cid ctype reason).1).dismissed.contains cid = true ∧
    (∀ t : EnhancedState, t.dismissed.contains cid = true →
      (∀ screen c, getPopupCampaignDismiss t.campaigns t.dismissed screen = some c →
        c.id ≠ cid) ∧
      (∀ screen c, getPermissionPromptCampaignDismiss t.campaigns t.dismissed screen = some c →
        c.id ≠ cid) ∧
      (∀ screen ids p, p ∈ getInlineComponents t.campaigns t.dismissed screen ids →
        p.1 ≠ cid)) ∧
    (∀ cid2 ctype2 reason2,
      ((dismissCampaign ((dismissCampaign s cid ctype reason).1) cid2 ctype2 reason2).1).dismissed.contains
        cid = true) := by
  have hcontains : ∀ (d : List String),
      (if d.contains cid then d else d ++ [cid]).contains cid = true := by
    intro d
    by_cases h : d.contains cid = true
    · rw [if_pos h]; exact h
    · rw [if_neg h]
      simp
  have hgrow : ∀ (d : List String) (x : String), d.contains cid = true →
      (if d.contains x then d else d ++ [x]).contains cid = true := by
    intro d x h
    by_cases hx : d.contains x = true
    · rw [if_pos hx]; exact h
    · rw [if_neg hx]
      simp at h ⊢
      exact Or.inl h
  refine ⟨rfl, hcontains s.dismissed, ?_, ?_⟩
  · intro t ht
    refine ⟨?_, ?_, ?_⟩
    · intro screen c hc
      simp only [getPopupCampaignDismiss] at hc
      rw [head_filter_eq_find] at hc
      have hpred := List.find?_some hc
      simp only [Bool.and_eq_true] at hpred
      exact pred_dismissed_ne ht hpred.2
    · intro screen c hc
      simp only [getPermissionPromptCampaignDismiss] at hc
      rw [head_filter_eq_find] at hc
      have hpred := List.find?_some hc
      simp only [Bool.and_eq_true] at hpred
      exact pred_dismissed_ne ht hpred.2
    · intro screen ids p hp
      simp only [getInlineComponents] at hp
      cases ids with
      | none =>
        obtain ⟨c, hcmem, hcp⟩ := List.mem_map.mp hp
        have hpred := List.of_mem_filter hcmem
        simp only [Bool.and_eq_true] at hpred
        rw [← hcp]
        exact pred_dismissed_ne ht hpred.2
      | some allow =>
        obtain ⟨c, hcmem, hcp⟩ := List.mem_map.mp hp
        have hpred := List.of_mem_filter (List.mem_of_mem_filter hcmem)
        simp only [Bool.and_eq_true] at hpred
        rw [← hcp]
        exact pred_dismissed_ne ht hpred.2
  · intro cid2 ctype2 reason2
    exact hgrow _ _ (hcontains s.dismissed)

/-- Sample campaign of backend/server.js initial data. -/
def welcomePopup : Campaign :=
  ⟨"welcome_popup", ComponentKind.Popup, ⟨"screen_enter", "Home"⟩,
    ⟨"Welcome!", "This popup was injected dynamically by the SDK!",
      some "Got it!", some "Remind me later"⟩, true⟩

/-- Second popup targeting the same screen, used to exercise selectors. -/
def secondPopup : Campaign :=
  ⟨"other_popup", ComponentKind.Popup, ⟨"screen_enter", "Home"⟩,
    ⟨"Hello again", "Another popup", none, none⟩, true⟩

/-- Witness for dismissCampaign_hides_campaign: dismissing welcome_popup puts
it in the set, and the selector applied to a state where it is dismissed
returns the other popup, whose id therefore differs. -/
theorem dismissCampaign_hides_campaign_witness :
    ((dismissCampaign ⟨[welcomePopup, secondPopup], []⟩ "welcome_popup" "Popup" "backdrop").1).dismissed.contains
        "welcome_popup" = true ∧
    secondPopup.id ≠ "welcome_popup" := by
  have h := dismissCampaign_hides_campaign ⟨[welcomePopup, secondPopup], []⟩
    "welcome_popup" "Popup" "backdrop"
  refine ⟨h.2.1, ?_⟩
  exact (h.2.2.1 ⟨[welcomePopup, secondPopup], ["welcome_popup"]⟩ (by decide)).1
    "Home" secondPopup (by decide)

/-- Filters with pointwise equal predicates agree. -/
theorem filter_congr_fun {α : Type} (p q : α → Bool) (l : List α)
    (h : ∀ a, p a = q a) : l.filter p = l.filter q := by
  have hpq : p = q := funext h
  rw [hpq]

/-- C2: with nothing dismissed, getInlineComponents returns ALL campaigns of L
with component InlineComponent and a screen_enter trigger for S, in original
list order, each tagged with its own id; supplying an allow-list of campaign
ids restricts the result to the intersection, still in campaign-list order
(one pass over L, not allow-list order). -/
theorem getInlineComponents_all_matches (L : List Campaign) (S : String)
    (allow : List String) :
    getInlineComponents L [] S none =
      (L.filter (fun c =>
        (c.trigger.type == "screen_enter" && c.trigger.screen == S) &&
        c.component == ComponentKind.InlineComponent)).map (fun c => (c.id, c.props)) ∧
    getInlineComponents L [] S (some allow) =
      (L.filter (fun c =>
        ((c.trigger.type == "screen_enter" && c.trigger.screen == S) &&
        c.component == ComponentKind.InlineComponent) && allow.contains c.id)).map
        (fun c => (c.id, c.props)) := by
  constructor
  · simp only [getInlineComponents, getCampaignsForScreen]
    rw [filter_filter_and]
    congr 1
    apply filter_congr_fun
    intro a
    simp
  · simp only [getInlineComponents, getCampaignsForScreen]
    rw [filter_filter_and, filter_filter_and]
    congr 1
    apply filter_congr_fun
    intro a
    simp [Bool.and_assoc]

/-- Action a subscriber callback performs on the same event's callback list
while it runs during an emit (the reentrancy hazard of spec section 5):
nothing, an `_off` of a target callback, or an `_on` of a new callback. -/
inductive CbAction
  | noop
  | remove (target : Nat)
  | add (newCb : Nat)
deriving DecidableEq, Repr

/-- Effect of running one callback on the live callback array: `_off` is
indexOf plus splice, i.e. removal of the first occurrence and a no-op when the
target is absent (List.erase), `_on` pushes at the end. -/
def runCallback (beh : Nat → CbAction) (arr : List Nat) (cb : Nat) : List Nat :=
  match beh cb with
  | CbAction.noop => arr
  | CbAction.remove target => arr.erase target
  | CbAction.add newCb => arr ++ [newCb]

/-- PipeGuru.ts `emit` body, `callbacks.forEach(callback => callback(...))`,
where `callbacks` is the LIVE array held in the listeners Map (Map.get returns
a reference, not a copy), following ECMAScript forEach semantics: the index
range is fixed by the array length when the iteration starts, indexes are
visited in increasing order, and an index that no longer exists in the
(possibly shrunk) array is skipped. Arguments: callback behaviors, remaining
index count, current index, current array, invocations so far; result: final
array and the callbacks invoked, in order. -/
def emitForEach (beh : Nat → CbAction) :
    Nat → Nat → List Nat → List Nat → List Nat × List Nat
  | 0, _, arr, invoked => (arr, invoked)
  | remaining + 1, k, arr, invoked =>
    match arr[k]? with
    | some cb => emitForEach beh remaining (k + 1) (runCallback beh arr cb) (invoked ++ [cb])
    | none => emitForEach beh remaining (k + 1) arr invoked

/-- One emit of an event whose callback list is `callbacks` at emit time. -/
def emitEvent (beh : Nat → CbAction) (callbacks : List Nat) : List Nat × List Nat :=
  emitForEach beh callbacks.length 0 callbacks []

/-- Behavior used in the counterexample: callback 1 unregisters itself during
its own invocation, callback 2 does nothing. -/
def selfRemovingBeh : Nat → CbAction :=
  fun n => if n = 1 then CbAction.remove 1 else CbAction.noop

/-- C8 counterexample: emit does NOT iterate a snapshot. With callbacks [1, 2]
registered at emit time and callback 1 unregistering itself during the emit,
callback 2 is still registered when the emit finishes, yet the emit invokes
only callback 1: an unregistration performed by a callback during the emit
changes which callbacks that emit invokes, contradicting the claim. -/
theorem emit_snapshot_counterexample :
    (emitEvent selfRemovingBeh [1, 2]).1 = [2] ∧
    (emitEvent selfRemovingBeh [1, 2]).2 = [1] ∧
    (emitEvent selfRemovingBeh [1, 2]).2 ≠ [1, 2] := by
  refine ⟨rfl, rfl, ?_⟩
  decide

/-- Invocation list of a forEach emit in which no callback removes listeners:
exactly the elements of the starting array, in order, appended to the
accumulator; appended elements are beyond the captured index range. -/
theorem emitForEach_no_remove (beh : Nat → CbAction)
    (h : ∀ n t, beh n ≠ CbAction.remove t) :
    ∀ (remaining k : Nat) (arr0 extra acc : List Nat), remaining + k = arr0.length →
      (emitForEach beh remaining k (arr0 ++ extra) acc).2 = acc ++ arr0.drop k := by
  intro remaining
  induction remaining with
  | zero =>
    intro k arr0 extra acc hk
    simp only [emitForEach]
    have hdrop : arr0.drop k = [] := List.drop_eq_nil_of_le (by omega)
    rw [hdrop, List.append_nil]
  | succ rem ih =>
    intro k arr0 extra acc hk
    have hklt : k < arr0.length := by omega
    have hget : (arr0 ++ extra)[k]? = some arr0[k] := by
      rw [List.getElem?_append_left hklt]
      exact List.getElem?_eq_getElem hklt
    have hdrop : arr0.drop k = arr0[k] :: arr0.drop (k + 1) :=
      List.drop_eq_getElem_cons hklt
    simp only [emitForEach, hget]
    cases hbeh : beh arr0[k] with
    | noop =>
      simp only [runCallback, hbeh]
      rw [ih (k + 1) arr0 extra (acc ++ [arr0[k]]) (by omega), hdrop]
      simp
    | remove target =>
      exact absurd hbeh (h _ _)
    | add newCb =>
      simp only [runCallback, hbeh]
      rw [List.append_assoc]
      rw [ih (k + 1) arr0 (extra ++ [newCb]) (acc ++ [arr0[k]]) (by omega), hdrop]
      simp

/-- C8 amended: emit invokes callbacks by iterating the live callback array
with the index range captured at emit start; a callback that registers new
callbacks on the same event during the emit does not change which callbacks
that emit invokes, and when no callback unregisters listeners during the emit,
exactly the callbacks registered at emit time are invoked, in registration
order. (Unregistration during the emit can shift later callbacks to lower
indexes and skip them, as the counterexample shows.) -/
theorem emit_no_remove_invokes_all (beh : Nat → CbAction)
    (h : ∀ n t, beh n ≠ CbAction.remove t) (callbacks : List Nat) :
    (emitEvent beh callbacks).2 = callbacks := by
  have hrun := emitForEach_no_remove beh h callbacks.length 0 callbacks [] [] (by simp)
  simpa [emitEvent] using hrun

/-- Behavior for the amended-claim witness: callback 1 registers callback 9 on
the same event during the emit, callback 2 does nothing. -/
def addDuringEmitBeh : Nat → CbAction :=
  fun n => if n = 1 then CbAction.add 9 else CbAction.noop

/-- Witness for emit_no_remove_invokes_all: with callbacks [1, 2] and callback
1 registering callback 9 mid-emit, exactly callbacks 1 and 2 are invoked (the
newly registered 9 is not). -/
theorem emit_no_remove_invokes_all_witness :
    (emitEvent addDuringEmitBeh [1, 2]).2 = [1, 2] :=
  emit_no_remove_invokes_all addDuringEmitBeh
    (by
      intro n t
      by_cases hn : n = 1 <;> simp [addDuringEmitBeh, hn])
    [1, 2]
